import Mathlib

/-!
Shallow embedding of the gomemtest memory-benchmark core.

Conventions used throughout this development:
* Go machine integers in this code never approach overflow bounds, so they
  are embedded as `Nat` (sizes, counts, indices).
* Go `float64` quantities derived from timings (latencies in nanoseconds,
  bandwidths) are embedded as `Rat`; all values actually reached by the
  measurement code are far from float rounding pathologies, and every
  comparison the code performs is between such derived values.
* Wall-clock readings and random draws are unobservable inputs: they are
  passed in as explicit oracle functions.  A call `rand.Intn k` with
  `0 < k` is modelled as `oracle i % k` for an arbitrary `oracle : Nat → Nat`;
  a call with `k ≤ 0` panics in Go, so functions that can reach such a call
  return `Option` and yield `none` there.
* `rand.Perm n` returns an arbitrary permutation; it is modelled as an
  `Equiv.Perm (Fin n)` parameter.
-/

namespace Gomemtest

/-! ### Configuration records

`src/pkg/test1/test1.go` (`Config`, `NewDefaultConfig`) and
`src/pkg/test2/memtest.go` (`Config`, `NewDefaultConfig`).
-/

/-- Struct `Config` of package test1 (`src/pkg/test1/test1.go` lines 14-24). -/
structure Test1Config where
  ArraySize : Nat
  Iterations : Nat
  Threads : Nat
  Verbose : Bool
  SkipLargeTests : Bool
  ChartWidth : Nat
  TestSequential : Bool
  TestThreaded : Bool
  TestDetailedSizes : Bool
deriving DecidableEq

/-- Constructor `NewDefaultConfig` of package test1 (`src/pkg/test1/test1.go` lines 27-42).
`runtime.NumCPU()` is a host fact, passed in as `numCPU`. -/
def test1NewDefaultConfig (numCPU : Nat) : Test1Config :=
  { ArraySize := 256 * 1024 * 1024 / 8
    Iterations := 10000000
    Threads := numCPU
    Verbose := false
    SkipLargeTests := false
    ChartWidth := 40
    TestSequential := true
    TestThreaded := true
    TestDetailedSizes := true }

/-- Struct `Config` of package test2 (`src/pkg/test2/memtest.go` lines 13-19). -/
structure Test2Config where
  SizeInMB : Nat
  Iterations : Nat
  RunBasicTests : Bool
  RunAdvanced : Bool
  RunCacheTests : Bool
deriving DecidableEq

/-- Constructor `NewDefaultConfig` of package test2 (`src/pkg/test2/memtest.go` lines 22-30). -/
def test2NewDefaultConfig : Test2Config :=
  { SizeInMB := 256
    Iterations := 1000000
    RunBasicTests := true
    RunAdvanced := true
    RunCacheTests := true }

/-! ### Cache-size estimation, latency-based variant

`src/unnamed/part_003`: `CacheSizes`, `EstimateCacheSizes`, `estimateCacheSize`.
-/

/-- Struct `CacheSizes` (`src/unnamed/part_003` lines 12-16). -/
structure CacheSizes where
  L1 : Nat
  L2 : Nat
  L3 : Nat
deriving DecidableEq

/-- Loop body of `estimateCacheSize` (`src/unnamed/part_003` lines 50-88).
The Go loop is `for size := minSize; size <= maxSize; size += step`; the
fuel argument counts its remaining iterations.  `oracle size s` is the
elapsed nanoseconds measured by sample `s` of the timed loop at `size`
(the `time.Since(start).Nanoseconds()` value); `samplesPerSize = 3`,
`threshold = 1.5`.  `last` is `lastLatency` (zero-initialised) and the
zero result at fuel exhaustion is the zero-initialised `bestSize`. -/
def estimateLoopGo (oracle : Nat → Nat → Rat) (step : Nat) :
    Nat → Nat → Rat → Nat
  | 0, _, _ => 0
  | fuel + 1, size, last =>
    let avg : Rat := (oracle size 0 + oracle size 1 + oracle size 2) / 3
    if 0 < last ∧ last * (3 / 2) < avg then size - step
    else estimateLoopGo oracle step fuel (size + step) avg

/-- Function `estimateCacheSize` (`src/unnamed/part_003` lines 43-91): scans sizes
from `minSize` to `maxSize` by `step` and returns `size - step` at the
first jump of more than 1.5x in the sampled latency, and the
zero-initialised `bestSize` when no jump is found. -/
def estimateCacheSize (minSize maxSize step : Nat) (oracle : Nat → Nat → Rat) : Nat :=
  estimateLoopGo oracle step ((maxSize - minSize) / step + 1) minSize 0

/-- Function `EstimateCacheSizes` (`src/unnamed/part_003` lines 20-39): seeds the
defaults 32 KiB / 256 KiB / 8 MiB and then overwrites each field with the
result of `estimateCacheSize`, unconditionally. -/
def estimateCacheSizesLat (o1 o2 o3 : Nat → Nat → Rat) : CacheSizes :=
  let result : CacheSizes :=
    { L1 := 32 * 1024, L2 := 256 * 1024, L3 := 8 * 1024 * 1024 }
  let result := { result with L1 := estimateCacheSize (4 * 1024) (64 * 1024) (4 * 1024) o1 }
  let result := { result with L2 := estimateCacheSize (64 * 1024) (1024 * 1024) (64 * 1024) o2 }
  { result with L3 := estimateCacheSize (1024 * 1024) (32 * 1024 * 1024) (1024 * 1024) o3 }

/-! ### Access-pattern generator: node links

The linking loops of `src/pkg/test2/advanced.go` lines 34-37 and
`src/pkg/test2/memtest.go` lines 172-177 write
`nodes[indices[i]].Next = &nodes[indices[i+1]]` for `i < n-1` and close the
list with `nodes[indices[n-1]].Next = &nodes[indices[closeTo]]`
(`closeTo = 0` in `AdvancedLatencyTest`, `closeTo = randomIdx` in
`PointerChasingTest`).  With `ind` the permutation `indices`, the `Next`
field of node `v` is therefore the function below: reading `i = ind.symm v`
for the unique position whose entry is `v`, node `v` points at entry
`i + 1` when one exists and at entry `closeTo` when `i` is the last
position. -/
def linkNext {n : Nat} (ind : Equiv.Perm (Fin n)) (closeTo : Fin n) (v : Fin n) : Fin n :=
  if h : (ind.symm v).val + 1 < n then ind ⟨(ind.symm v).val + 1, h⟩ else ind closeTo

/-! ### Access-pattern generator: constrained shuffle

`setupRandomPattern` (`src/test2/advanced.go` lines 37-71).
-/

/-- The `minDistance` computed inside the shuffle loop of
`setupRandomPattern` (`src/test2/advanced.go` lines 55-59): 16, or
`nodeCount / 4` when `nodeCount > 64`. -/
def minDistanceOf (n : Nat) : Nat :=
  if n > 64 then n / 4 else 16

/-- The swap target `j := (i + minDistance + rand.Intn(nodeCount-minDistance)) % nodeCount`
(`src/test2/advanced.go` line 61), with the random draw modelled as
`oracle i % (n - minDistanceOf n)`.  Meaningful only when
`minDistanceOf n < n`; otherwise `rand.Intn` panics (see
`setupRandomPattern`). -/
def swapTarget (oracle : Nat → Nat) (n i : Nat) : Nat :=
  (i + minDistanceOf n + oracle i % (n - minDistanceOf n)) % n

/-- The simultaneous swap `indices[i], indices[j] = indices[j], indices[i]`
on a list. -/
def swapL (l : List Nat) (i j : Nat) : List Nat :=
  (l.set i (l.getD j 0)).set j (l.getD i 0)

/-- The shuffle loop of `setupRandomPattern` (`src/test2/advanced.go`
lines 48-63): start from the identity permutation `indices[i] = i` and,
for each `i` from 0 to `nodeCount - 1`, swap `indices[i]` with
`indices[swapTarget i]`. -/
def shuffleIndices (oracle : Nat → Nat) (n : Nat) : List Nat :=
  (List.range n).foldl (fun a i => swapL a i (swapTarget oracle n i)) (List.range n)

/-- Function `setupRandomPattern` (`src/test2/advanced.go` lines 37-71), returning
the shuffled `indices` list that the linking loop then turns into the
successor cycle `indices[0] → indices[1] → ... → indices[n-1] → indices[0]`.
Failure cases, modelled as `none`:
* `n ≤ minDistanceOf n` (that is `n ≤ 16`): the very first loop iteration
  calls `rand.Intn(nodeCount - minDistance)` with a non-positive argument,
  which panics in Go;
* `n = 0`: the shuffle loop body never runs, but the closing link then
  reads `indices[nodeCount-1]`, an out-of-range index, which panics. -/
def setupRandomPattern (oracle : Nat → Nat) (n : Nat) : Option (List Nat) :=
  if n = 0 then none
  else if n ≤ minDistanceOf n then none
  else some (shuffleIndices oracle n)

/-- Distance between two storage indices: `|a - b|` on naturals. -/
def natDist (a b : Nat) : Nat :=
  max a b - min a b

/-- The prefetcher-defeat property claimed by the spec for the pattern:
every node of the cyclic list `L = indices` is at storage distance
(taken `mod n`) at least `d` from its successor. -/
def prefetcherDefeat (n d : Nat) (L : List Nat) : Prop :=
  ∀ i, i < n → d ≤ natDist (L.getD i 0) (L.getD ((i + 1) % n) 0) % n

instance (n d : Nat) (L : List Nat) : Decidable (prefetcherDefeat n d L) := by
  unfold prefetcherDefeat
  infer_instance

/-! ### Multi-pass latency statistics

`runLatencyTests` (`src/test2/advanced.go` lines 75-129).
-/

/-- One pass of the statistics accumulation in `runLatencyTests`
(`src/test2/advanced.go` lines 111-118): the state is
`(minLatency, maxLatency, totalLatency)` and `ns` is the
nanoseconds-per-access value of the pass. -/
def passStep (ns : Rat) (st : Rat × Rat × Rat) : Rat × Rat × Rat :=
  let m := if ns < st.1 then ns else st.1
  let M := if st.2.1 < ns then ns else st.2.1
  (m, M, st.2.2 + ns)

/-- Function `runLatencyTests` (`src/test2/advanced.go` lines 75-129), reduced to
its reported numbers: `elapsed p` is the wall-clock nanoseconds of timed
pass `p` (each pass runs `iterCount = 10000000` dereferences), the state
starts at `minLatency = 1000000`, `maxLatency = 0`, `totalLatency = 0`
(Go zero values for the latter two), and the function reports
`(minLatency, maxLatency, totalLatency / 5)` after the 5 passes. -/
def runLatencyTests (elapsed : Nat → Rat) : Rat × Rat × Rat :=
  let st := (List.range 5).foldl
    (fun st p => passStep (elapsed p / 10000000) st) (1000000, 0, 0)
  (st.1, st.2.1, st.2.2 / 5)

/-! ### Threaded scaling test

`RunThreadedTest` (`src/pkg/test1/test1.go` lines 275-364).
-/

/-- The latency average of one round of `RunThreadedTest` with `t` worker
goroutines (`src/pkg/test1/test1.go` lines 323-356): each worker `i`
measures its own nanoseconds-per-access figure `lat t i`, the workers sum
them into `totalLatency` under a mutex, and the round reports
`totalLatency / t`.  Rational addition is commutative and associative, so
the mutex-ordering nondeterminism does not affect the sum. -/
def roundAverage (lat : Nat → Nat → Rat) (t : Nat) : Rat :=
  ((List.range t).map (lat t)).sum / (t : Rat)

/-- Function `RunThreadedTest` (`src/pkg/test1/test1.go` lines 275-364), reduced to
the `results` and `labels` slices it builds: both are allocated with
length `Threads = T` and the round for thread-count `t` writes
`results[t-1] = roundAverage t` and `labels[t-1] = fmt.Sprintf("%d", t)`. -/
def runThreadedTest (T : Nat) (lat : Nat → Nat → Rat) : List Rat × List String :=
  ((List.range T).map fun k => roundAverage lat (k + 1),
   (List.range T).map fun k => toString (k + 1))

/-! ### Pointer-chasing test

`PointerChasingTest` (`src/pkg/test2/memtest.go` lines 161-203) and its
twin `pointerChasingTest` (`src/unnamed/part_002` lines 94-136).
-/

/-- The node count derived from the configuration:
`nodeCount := m.Config.SizeInMB * 1024 * 1024 / 64`
(`src/pkg/test2/memtest.go` line 165). -/
def pointerChasingNodeCount (sizeInMB : Nat) : Nat :=
  sizeInMB * 1024 * 1024 / 64

/-- Function `PointerChasingTest` (`src/pkg/test2/memtest.go` lines 161-203) reduced
to its traversal: after linking the nodes along the permutation `ind` and
closing the list with `randomIdx := rand.Intn(nodeCount-2) + 1`
(modelled as `r % (c - 2) + 1`), it walks 1000 warm-up steps plus
`Iterations` timed steps from `nodes[indices[0]]` and returns the final
node.  When `c - 2 ≤ 0`, that is `c ≤ 2`, the call
`rand.Intn(nodeCount - 2)` receives a non-positive argument and panics in
Go, so the result is `none`. -/
def pointerChasingTest (c : Nat) (ind : Equiv.Perm (Fin c)) (r iters : Nat) :
    Option (Fin c) :=
  if h : 2 < c then
    let randomIdx : Fin c := ⟨r % (c - 2) + 1, by
      have h2 : 0 < c - 2 := by omega
      have := Nat.mod_lt r h2
      omega⟩
    some ((linkNext ind randomIdx)^[1000 + iters] (ind ⟨0, by omega⟩))
  else none

/-! ### Cache-size estimation, bandwidth-based variant

`EstimateCacheSizes` of package test2 (`src/unnamed/part_001` lines 13-134).
-/

/-- The fixed sweep of buffer sizes (`src/unnamed/part_001` lines 26-41):
4 KiB up to 32 MiB, doubling. -/
def cacheSweepSizes : List Nat :=
  [4 * 1024, 8 * 1024, 16 * 1024, 32 * 1024, 64 * 1024, 128 * 1024,
   256 * 1024, 512 * 1024, 1024 * 1024, 2 * 1024 * 1024, 4 * 1024 * 1024,
   8 * 1024 * 1024, 16 * 1024 * 1024, 32 * 1024 * 1024]

/-- The boundary-detection loop of `EstimateCacheSizes`
(`src/unnamed/part_001` lines 98-114): scan `i` from 1 upward, mark index
`i` when the relative drop `1 - bandwidths[i]/bandwidths[i-1]` exceeds 0.3,
fill `l1Index`, then `l2Index`, then `l3Index`, and break as soon as
`l3Index` is set.  The fuel argument bounds the remaining iterations. -/
def detectGo (bw : List Rat) :
    Nat → Nat → Option Nat → Option Nat → Option Nat × Option Nat × Option Nat
  | 0, _, l1, l2 => (l1, l2, none)
  | fuel + 1, i, l1, l2 =>
    if i < bw.length then
      if 3 / 10 < 1 - bw.getD i 0 / bw.getD (i - 1) 0 then
        match l1, l2 with
        | none, _ => detectGo bw fuel (i + 1) (some i) l2
        | some a, none => detectGo bw fuel (i + 1) (some a) (some i)
        | some a, some b => (some a, some b, some i)
      else detectGo bw fuel (i + 1) l1 l2
    else (l1, l2, none)

/-- The `(l1Index, l2Index, l3Index)` triple computed by
`EstimateCacheSizes` (`src/unnamed/part_001` lines 98-114), with `none`
standing for the sentinel `-1`. -/
def detectBoundaries (bw : List Rat) : Option Nat × Option Nat × Option Nat :=
  detectGo bw bw.length 1 none none

/-- Modelled from the spec wording for C5: index `i` marks a boundary
exactly when `1 ≤ i` and the relative regression
`1 - bandwidth[i]/bandwidth[i-1]` exceeds the 0.3 threshold. -/
def qualifiesSpec (bw : List Rat) (i : Nat) : Prop :=
  1 ≤ i ∧ i < bw.length ∧ 3 / 10 < 1 - bw.getD i 0 / bw.getD (i - 1) 0

instance (bw : List Rat) (i : Nat) : Decidable (qualifiesSpec bw i) := by
  unfold qualifiesSpec
  infer_instance

/-- Modelled from the spec wording for C5: the qualifying boundary indices
in ascending order. -/
def qualifyingIndices (bw : List Rat) : List Nat :=
  (List.range bw.length).filter fun i => decide (qualifiesSpec bw i)

/-- The final assembly of `EstimateCacheSizes` (`src/unnamed/part_001`
lines 16-20 and 117-133): defaults 32 KiB / 256 KiB / 8 MiB, each
overwritten with `sizes[index-1]` only when the corresponding boundary
index was detected. -/
def estimateFromBandwidths (bw : List Rat) : CacheSizes :=
  let d := detectBoundaries bw
  { L1 := match d.1 with
      | some i => cacheSweepSizes.getD (i - 1) 0
      | none => 32 * 1024
    L2 := match d.2.1 with
      | some i => cacheSweepSizes.getD (i - 1) 0
      | none => 256 * 1024
    L3 := match d.2.2 with
      | some i => cacheSweepSizes.getD (i - 1) 0
      | none => 8 * 1024 * 1024 }

/-- Modelled from the spec wording for C5: the qualifying boundary indices
at or above position `i`. -/
def qualifyingFrom (bw : List Rat) (i : Nat) : List Nat :=
  (List.range' i (bw.length - i)).filter fun j => decide (qualifiesSpec bw j)

/-! ## Theorems -/

/-! ### Helper lemmas for the link structure -/

lemma linkNext_apply {n : Nat} (ind : Equiv.Perm (Fin n)) (c : Fin n) (i : Fin n) :
    linkNext ind c (ind i) =
      if h : i.val + 1 < n then ind ⟨i.val + 1, h⟩ else ind c := by
  simp only [linkNext, Equiv.symm_apply_apply]

lemma iterate_linkNext_zero {n : Nat} (hn : 0 < n) (ind : Equiv.Perm (Fin n))
    (k : Nat) (i : Fin n) :
    (linkNext ind ⟨0, hn⟩)^[k] (ind i) = ind ⟨(i.val + k) % n, Nat.mod_lt _ hn⟩ := by
  induction k with
  | zero =>
    simp only [Function.iterate_zero, id_eq]
    congr 1
    apply Fin.ext
    show i.val = (i.val + 0) % n
    rw [Nat.add_zero, Nat.mod_eq_of_lt i.isLt]
  | succ k ih =>
    rw [Function.iterate_succ_apply', ih, linkNext_apply]
    by_cases h : (i.val + k) % n + 1 < n
    · rw [dif_pos h]
      congr 1
      apply Fin.ext
      show (i.val + k) % n + 1 = (i.val + (k + 1)) % n
      have hd := Nat.div_add_mod (i.val + k) n
      have h2 : i.val + (k + 1) = n * ((i.val + k) / n) + ((i.val + k) % n + 1) := by
        omega
      rw [h2, Nat.mul_add_mod, Nat.mod_eq_of_lt h]
    · rw [dif_neg h]
      have hr : (i.val + k) % n < n := Nat.mod_lt _ hn
      congr 1
      apply Fin.ext
      show 0 = (i.val + (k + 1)) % n
      have hd := Nat.div_add_mod (i.val + k) n
      have h2 : i.val + (k + 1) = n * ((i.val + k) / n) + n := by omega
      rw [h2, Nat.add_mod_right, Nat.mul_mod_right]

lemma iterate_linkNext_tail {n : Nat} (ind : Equiv.Perm (Fin n)) (r : Fin n)
    (k : Nat) (hk : r.val + k ≤ n - 1) :
    (linkNext ind r)^[k] (ind r) =
      ind ⟨r.val + k, by have := r.isLt; omega⟩ := by
  induction k with
  | zero => rfl
  | succ k ih =>
    have hk2 : r.val + k ≤ n - 1 := by omega
    rw [Function.iterate_succ_apply', ih hk2, linkNext_apply]
    have hlt : r.val + k + 1 < n := by have := r.isLt; omega
    rw [dif_pos hlt]
    rfl

/-! ### C1: cycle structure of the constructed patterns -/

/-- C1, counterexample.  The interior-closure variant of
`PointerChasingTest` (`src/pkg/test2/memtest.go` lines 169-180) does not
produce a single cycle of length N: with N = 5 nodes, `rand.Perm` giving
the identity permutation and `rand.Intn(3)` drawing 0 (so
`randomIdx = 1`), the forward traversal that starts at node 0 is not back
at its start after 5 steps, so it cannot have visited all 5 nodes exactly
once before revisiting its start. -/
theorem C1_counterexample :
    (linkNext (Equiv.refl (Fin 5)) ⟨1, by omega⟩)^[5] ⟨0, by omega⟩ ≠ ⟨0, by omega⟩ := by
  decide

/-- C1, amended.  The constructor that closes the list back to
`indices[0]` (`AdvancedLatencyTest`, `src/pkg/test2/advanced.go` lines
31-37) does produce a single N-cycle: from any node, N steps return to the
start, fewer than N steps never do, and every node is reached within N
steps.  The interior-closure variant (`PointerChasingTest`,
`src/pkg/test2/memtest.go` lines 169-180) instead produces a rho shape for
every reachable draw `randomIdx ≥ 1`: node `indices[0]` has no incoming
link at all, and the walk from `indices[randomIdx]` closes after exactly
`N - randomIdx < N` steps, so the links do not form one cycle through all
N nodes. -/
theorem C1_cycle_structure (n : Nat) (hn : 0 < n) (ind : Equiv.Perm (Fin n)) :
    (∀ v : Fin n,
        (linkNext ind ⟨0, hn⟩)^[n] v = v
      ∧ (∀ k, 0 < k → k < n → (linkNext ind ⟨0, hn⟩)^[k] v ≠ v)
      ∧ (∀ w : Fin n, ∃ k, k < n ∧ (linkNext ind ⟨0, hn⟩)^[k] v = w))
    ∧ (∀ r : Fin n, 1 ≤ r.val →
        (∀ v : Fin n, linkNext ind r v ≠ ind ⟨0, hn⟩)
      ∧ (linkNext ind r)^[n - r.val] (ind r) = ind r
      ∧ 0 < n - r.val ∧ n - r.val < n) := by
  constructor
  · intro v
    obtain ⟨i, rfl⟩ : ∃ i, ind i = v := ⟨ind.symm v, ind.apply_symm_apply v⟩
    refine ⟨?_, ?_, ?_⟩
    · rw [iterate_linkNext_zero hn ind n i]
      congr 1
      apply Fin.ext
      show (i.val + n) % n = i.val
      rw [Nat.add_mod_right, Nat.mod_eq_of_lt i.isLt]
    · intro k hk0 hkn heq
      rw [iterate_linkNext_zero hn ind k i] at heq
      have hv : (i.val + k) % n = i.val := congrArg Fin.val (ind.injective heq)
      rcases Nat.lt_or_ge (i.val + k) n with h | h
      · rw [Nat.mod_eq_of_lt h] at hv
        omega
      · have hlt : i.val + k - n < n := by have := i.isLt; omega
        rw [Nat.mod_eq_sub_mod h, Nat.mod_eq_of_lt hlt] at hv
        have := i.isLt
        omega
    · intro w
      obtain ⟨j, rfl⟩ : ∃ j, ind j = w := ⟨ind.symm w, ind.apply_symm_apply w⟩
      refine ⟨(j.val + n - i.val) % n, Nat.mod_lt _ hn, ?_⟩
      rw [iterate_linkNext_zero hn ind _ i]
      congr 1
      apply Fin.ext
      show (i.val + (j.val + n - i.val) % n) % n = j.val
      rw [Nat.add_mod_mod]
      have h2 : i.val + (j.val + n - i.val) = j.val + n := by have := i.isLt; omega
      rw [h2, Nat.add_mod_right, Nat.mod_eq_of_lt j.isLt]
  · intro r hr
    refine ⟨?_, ?_, ?_, ?_⟩
    · intro v heq
      obtain ⟨i, rfl⟩ : ∃ i, ind i = v := ⟨ind.symm v, ind.apply_symm_apply v⟩
      rw [linkNext_apply] at heq
      by_cases h : i.val + 1 < n
      · rw [dif_pos h] at heq
        have h0 : i.val + 1 = 0 := congrArg Fin.val (ind.injective heq)
        omega
      · rw [dif_neg h] at heq
        have h0 : r.val = 0 := congrArg Fin.val (ind.injective heq)
        omega
    · have h1 : (linkNext ind r)^[n - 1 - r.val] (ind r) =
          ind ⟨n - 1, by have := r.isLt; omega⟩ := by
        rw [iterate_linkNext_tail ind r (n - 1 - r.val) (by have := r.isLt; omega)]
        congr 1
        apply Fin.ext
        show r.val + (n - 1 - r.val) = n - 1
        have := r.isLt
        omega
      have h2 : n - r.val = (n - 1 - r.val) + 1 := by have := r.isLt; omega
      rw [h2, Function.iterate_succ_apply', h1, linkNext_apply]
      rw [dif_neg (show ¬(n - 1 + 1 < n) from by omega)]
    · have := r.isLt
      omega
    · omega

/-- C1, witness: the amended theorem applied at N = 3, the identity
permutation, and interior closure index 1. -/
theorem C1_witness :
    (linkNext (Equiv.refl (Fin 3)) ⟨0, by omega⟩)^[3] ⟨2, by omega⟩ = ⟨2, by omega⟩
    ∧ linkNext (Equiv.refl (Fin 3)) ⟨1, by omega⟩ ⟨0, by omega⟩ ≠
        Equiv.refl (Fin 3) ⟨0, by omega⟩ := by
  constructor
  · exact ((C1_cycle_structure 3 (by omega) (Equiv.refl _)).1 ⟨2, by omega⟩).1
  · exact ((C1_cycle_structure 3 (by omega) (Equiv.refl _)).2 ⟨1, by omega⟩
      (by decide)).1 ⟨0, by omega⟩

/-! ### C2, C3: the constrained shuffle -/

lemma minDistanceOf_lt (n : Nat) (hn : 17 ≤ n) : minDistanceOf n < n := by
  unfold minDistanceOf
  split
  · exact Nat.div_lt_self (by omega) (by omega)
  · omega

/-- C2, counterexample.  `setupRandomPattern` does not guarantee the
prefetcher-defeat property: with N = 20 nodes (so `minDistance = 16`) and
every `rand.Intn` draw returning 0 (a value inside its range, since the
draw span is `20 - 16 = 4`), the shuffle produces the shown `indices`
list, in which most nodes point at a successor only 1 storage slot away. -/
theorem C2_counterexample :
    setupRandomPattern (fun _ => 0) 20 =
      some [4, 5, 6, 7, 8, 9, 10, 11, 12, 13, 14, 15, 0, 1, 2, 3, 16, 17, 18, 19]
    ∧ ¬ prefetcherDefeat 20 (minDistanceOf 20)
        [4, 5, 6, 7, 8, 9, 10, 11, 12, 13, 14, 15, 0, 1, 2, 3, 16, 17, 18, 19] := by
  constructor
  · decide
  · decide

/-- C2, amended.  What the shuffle of `setupRandomPattern` does guarantee
is a property of each swap, not of the final successor links: for every
node count N ≥ 17 (so that the draw span is positive) and every position
`i`, the swap target `j` lies at cyclic distance at least `minDistance`
ahead of `i`, is a valid position, and differs from `i`.  The storage
distance between a node and its successor in the final pattern is not
bounded below by the stride. -/
theorem C2_swap_offset (n i : Nat) (oracle : Nat → Nat) (hn : 17 ≤ n) (hi : i < n) :
    minDistanceOf n ≤ (swapTarget oracle n i + n - i) % n
    ∧ swapTarget oracle n i < n
    ∧ swapTarget oracle n i ≠ i := by
  have hd : minDistanceOf n < n := minDistanceOf_lt n hn
  have hd0 : 0 < minDistanceOf n := by
    unfold minDistanceOf
    split <;> omega
  have hr : oracle i % (n - minDistanceOf n) < n - minDistanceOf n :=
    Nat.mod_lt _ (by omega)
  have hkey : (swapTarget oracle n i + n - i) % n =
      minDistanceOf n + oracle i % (n - minDistanceOf n) := by
    unfold swapTarget
    set d := minDistanceOf n with hdd
    set r := oracle i % (n - d) with hrr
    have hs : d + r < n := by omega
    rcases Nat.lt_or_ge (i + d + r) n with h | h
    · rw [Nat.mod_eq_of_lt h]
      have h2 : i + d + r + n - i = (d + r) + n := by omega
      rw [h2, Nat.add_mod_right, Nat.mod_eq_of_lt hs]
    · have hlt : i + d + r - n < n := by omega
      rw [Nat.mod_eq_sub_mod h, Nat.mod_eq_of_lt hlt]
      have h2 : i + d + r - n + n - i = d + r := by omega
      rw [h2, Nat.mod_eq_of_lt hs]
  refine ⟨?_, ?_, ?_⟩
  · rw [hkey]
    omega
  · exact Nat.mod_lt _ (by omega)
  · intro heq
    rw [heq] at hkey
    have h2 : i + n - i = n := by omega
    rw [h2, Nat.mod_self] at hkey
    omega

/-- C2, witness: the amended theorem applied at N = 20, position 0, and
the all-zero draw oracle. -/
theorem C2_witness :
    17 ≤ 20
    ∧ minDistanceOf 20 ≤ (swapTarget (fun _ => 0) 20 0 + 20 - 0) % 20 :=
  ⟨by decide, (C2_swap_offset 20 0 (fun _ => 0) (by decide) (by decide)).1⟩

/-- C3, counterexample.  `setupRandomPattern` does not clamp the stride:
with N = 16 nodes, `minDistance` is 16 and the very first loop iteration
calls `rand.Intn(16 - 16)`, whose argument is not positive, so the
routine panics instead of completing. -/
theorem C3_counterexample :
    setupRandomPattern (fun _ => 0) 16 = none := by
  decide

/-- C3, amended.  `setupRandomPattern` completes normally exactly on node
counts with `nodeCount > minDistance`: for every N ≥ 17 and every draw
oracle it returns a pattern, while for every N with 1 ≤ N ≤ 16 the first
loop iteration passes the non-positive span `N - 16` to `rand.Intn` and
the construction fails.  (Callers enforce at least 1000 nodes, so the
failing range is unreachable from the program entry points.) -/
theorem C3_completion (n : Nat) (oracle : Nat → Nat) :
    (17 ≤ n → (setupRandomPattern oracle n).isSome = true)
    ∧ (1 ≤ n → n ≤ 16 → setupRandomPattern oracle n = none) := by
  constructor
  · intro hn
    unfold setupRandomPattern
    rw [if_neg (by omega), if_neg (Nat.not_le.mpr (minDistanceOf_lt n hn))]
    rfl
  · intro h1 h16
    unfold setupRandomPattern
    rw [if_neg (by omega), if_pos]
    unfold minDistanceOf
    rw [if_neg (by omega)]
    omega

/-- C3, witness: the amended theorem applied at N = 20 and N = 10 with the
all-zero draw oracle. -/
theorem C3_witness :
    (17 ≤ 20 ∧ (setupRandomPattern (fun _ => 0) 20).isSome = true)
    ∧ (1 ≤ 10 ∧ 10 ≤ 16 ∧ setupRandomPattern (fun _ => 0) 10 = none) :=
  ⟨⟨by decide, (C3_completion 20 (fun _ => 0)).1 (by decide)⟩,
   by decide, by decide, (C3_completion 10 (fun _ => 0)).2 (by decide) (by decide)⟩

/-! ### C4: latency-based cache-size estimation defaults -/

/-- C4, failing-input evaluation.  When the sampled latency never jumps by
more than the 1.5x threshold in any scanned range (here: every sample
measures a constant 100 ns), `estimateCacheSize` returns its
zero-initialised `bestSize`, and `EstimateCacheSizes` of
`src/unnamed/part_003` overwrites all three defaults with it
unconditionally: the returned estimate is (0, 0, 0), not the retained
defaults (32 KiB, 256 KiB, 8 MiB) promised by the claim and by the
comment in the code itself. -/
theorem C4_defaults_not_retained :
    estimateCacheSizesLat (fun _ _ => 100) (fun _ _ => 100) (fun _ _ => 100)
        = { L1 := 0, L2 := 0, L3 := 0 }
    ∧ (estimateCacheSizesLat (fun _ _ => 100) (fun _ _ => 100) (fun _ _ => 100)).L1
        ≠ 32 * 1024 := by
  constructor
  · norm_num [estimateCacheSizesLat, estimateCacheSize, estimateLoopGo]
  · norm_num [estimateCacheSizesLat, estimateCacheSize, estimateLoopGo]

/-! ### C7: multi-pass latency statistics -/

/-- C7, counterexample.  The reported minimum is not always the smallest
of the 5 per-pass values: if every timed pass takes 2e13 ns (2,000,000 ns
per access over the 10,000,000 iterations), the smallest per-pass value is
2,000,000 but the reported minimum is the initial sentinel 1,000,000,
because `minLatency` starts at 1000000 and no pass value undercuts it. -/
theorem C7_counterexample :
    runLatencyTests (fun _ => 20000000000000) = (1000000, 2000000, 2000000)
    ∧ (1000000 : Rat) ≠ 2000000 := by
  constructor
  · norm_num [runLatencyTests, passStep, List.range, List.range.loop, List.foldl]
  · norm_num

lemma if_lt_eq_min (x y : Rat) : (if x < y then x else y) = min y x := by
  rcases le_or_lt y x with h | h
  · rw [if_neg (not_lt.mpr h), min_eq_left h]
  · rw [if_pos h, min_eq_right h.le]

lemma if_lt_eq_max (x y : Rat) : (if y < x then x else y) = max y x := by
  rcases le_or_lt x y with h | h
  · rw [if_neg (not_lt.mpr h), max_eq_left h]
  · rw [if_pos h, max_eq_right h.le]

lemma passStep_eq (ns m M s : Rat) :
    passStep ns (m, M, s) = (min m ns, max M ns, s + ns) := by
  simp only [passStep, if_lt_eq_min, if_lt_eq_max]

/-- C7, amended.  The routine runs exactly 5 timed passes; for every
sequence of nonnegative pass timings it reports exactly the largest of
the 5 per-pass values as the maximum and their sum divided by 5 as the
average, but the reported minimum is `min 1000000 m` where `m` is the
smallest per-pass value: it equals the smallest pass value whenever that
value is at most the 1,000,000 ns sentinel that `minLatency` starts at. -/
theorem C7_latency_stats (elapsed : Nat → Rat) (h : ∀ p, p < 5 → 0 ≤ elapsed p) :
    runLatencyTests elapsed =
      (min 1000000
        (min (min (min (min (elapsed 0 / 10000000) (elapsed 1 / 10000000))
          (elapsed 2 / 10000000)) (elapsed 3 / 10000000)) (elapsed 4 / 10000000)),
       max (max (max (max (elapsed 0 / 10000000) (elapsed 1 / 10000000))
          (elapsed 2 / 10000000)) (elapsed 3 / 10000000)) (elapsed 4 / 10000000),
       (elapsed 0 / 10000000 + elapsed 1 / 10000000 + elapsed 2 / 10000000
          + elapsed 3 / 10000000 + elapsed 4 / 10000000) / 5)
    ∧ (min (min (min (min (elapsed 0 / 10000000) (elapsed 1 / 10000000))
          (elapsed 2 / 10000000)) (elapsed 3 / 10000000)) (elapsed 4 / 10000000)
          ≤ 1000000 →
        (runLatencyTests elapsed).1 =
          min (min (min (min (elapsed 0 / 10000000) (elapsed 1 / 10000000))
            (elapsed 2 / 10000000)) (elapsed 3 / 10000000)) (elapsed 4 / 10000000)) := by
  have h0 : (0 : Rat) ≤ elapsed 0 / 10000000 :=
    div_nonneg (h 0 (by omega)) (by norm_num)
  have hmain : runLatencyTests elapsed =
      (min 1000000
        (min (min (min (min (elapsed 0 / 10000000) (elapsed 1 / 10000000))
          (elapsed 2 / 10000000)) (elapsed 3 / 10000000)) (elapsed 4 / 10000000)),
       max (max (max (max (elapsed 0 / 10000000) (elapsed 1 / 10000000))
          (elapsed 2 / 10000000)) (elapsed 3 / 10000000)) (elapsed 4 / 10000000),
       (elapsed 0 / 10000000 + elapsed 1 / 10000000 + elapsed 2 / 10000000
          + elapsed 3 / 10000000 + elapsed 4 / 10000000) / 5) := by
    have hrange : List.range 5 = [0, 1, 2, 3, 4] := rfl
    unfold runLatencyTests
    rw [hrange]
    simp only [List.foldl_cons, List.foldl_nil, passStep_eq]
    simp only [Prod.mk.injEq]
    refine ⟨?_, ?_, ?_⟩
    · simp [min_assoc]
    · rw [max_eq_right h0]
    · ring
  refine ⟨hmain, fun hm => ?_⟩
  rw [hmain]
  exact min_eq_right hm

/-- C7, witness: the amended theorem applied to the constant timing of
1e7 ns per pass, which yields 1 ns per access in every pass. -/
theorem C7_witness :
    (∀ p, p < 5 → (0 : Rat) ≤ 10000000)
    ∧ runLatencyTests (fun _ => 10000000) = (1, 1, 1) := by
  refine ⟨fun p _ => by norm_num, ?_⟩
  rw [(C7_latency_stats (fun _ => 10000000) (fun p _ => by norm_num)).1]
  norm_num [min_def, max_def]

/-! ### C8: default configuration values -/

/-- C8, counterexample.  The default-configuration constructor of the
test2 variant (`src/pkg/test2/memtest.go` lines 22-30) sets
`Iterations: 1000000`, not the 10,000,000 claimed for every variant. -/
theorem C8_counterexample :
    test2NewDefaultConfig.Iterations = 1000000
    ∧ test2NewDefaultConfig.Iterations ≠ 10000000 := by
  decide

/-- C8, amended.  Both default constructors use a 256 MiB working set
(test1 stores it as `256*1024*1024/8` int64 elements, test2 as
`SizeInMB = 256`); test1 defaults to 10,000,000 iterations and
`Threads = runtime.NumCPU()`, while test2 defaults to 1,000,000
iterations and has no thread-count field at all. -/
theorem C8_defaults (numCPU : Nat) :
    (test1NewDefaultConfig numCPU).ArraySize * 8 = 256 * 1024 * 1024
    ∧ (test1NewDefaultConfig numCPU).Iterations = 10000000
    ∧ (test1NewDefaultConfig numCPU).Threads = numCPU
    ∧ test2NewDefaultConfig.SizeInMB = 256
    ∧ test2NewDefaultConfig.Iterations = 1000000 := by
  refine ⟨by norm_num [test1NewDefaultConfig], rfl, rfl, rfl, rfl⟩

/-! ### C9: no flagging of implausible measurements -/

/-- C9, failing-input evaluation.  With every timed pass measuring a
zero-duration elapsed time, the multi-pass latency routine reports
minimum, maximum and average of 0 ns per access, a physically implausible
value, as its ordinary result: the routine (and every other measurement
routine in the repository) has no code path that marks a derived value as
suspect, so the implausible number is reported exactly like a valid one. -/
theorem C9_zero_duration_reported_raw :
    runLatencyTests (fun _ => 0) = (0, 0, 0) := by
  norm_num [runLatencyTests, passStep, List.range, List.range.loop, List.foldl]

/-! ### C10: pointer-chasing totality -/

/-- C10.  The interior-closure draw `rand.Intn(nodeCount - 2)` of
`PointerChasingTest` receives a non-positive argument, and the routine
panics instead of returning, exactly when the derived node count is at
most 2 (as for `SizeInMB = 0`); for every node count of at least 3 the
draw is well defined and the traversal completes. -/
theorem C10_pointer_chasing_totality (c : Nat) (ind : Equiv.Perm (Fin c))
    (r iters : Nat) :
    (c ≤ 2 → pointerChasingTest c ind r iters = none)
    ∧ (3 ≤ c → (pointerChasingTest c ind r iters).isSome = true) := by
  constructor
  · intro hc
    unfold pointerChasingTest
    rw [dif_neg (by omega)]
  · intro hc
    unfold pointerChasingTest
    rw [dif_pos (by omega)]
    rfl

/-- C10, witness: node count 0 is derived from `SizeInMB = 0`, the test
panics at node count 2, and completes at node count 5. -/
theorem C10_witness :
    pointerChasingNodeCount 0 = 0
    ∧ pointerChasingTest 2 (Equiv.refl (Fin 2)) 0 7 = none
    ∧ (pointerChasingTest 5 (Equiv.refl (Fin 5)) 0 7).isSome = true :=
  ⟨rfl, (C10_pointer_chasing_totality 2 (Equiv.refl _) 0 7).1 (by decide),
   (C10_pointer_chasing_totality 5 (Equiv.refl _) 0 7).2 (by decide)⟩

/-! ### C6: threaded scaling result shape -/

/-- C6.  For every requested maximum thread count T ≥ 1 the threaded test
builds a results slice and a labels slice of exactly T entries, and for
every t from 1 to T the entry at position t-1 is the average of the t
per-worker latencies of the t-thread round together with the label for
thread count t, so thread counts increase by exactly 1 across entries. -/
theorem C6_threaded_scaling (T : Nat) (lat : Nat → Nat → Rat) (_hT : 1 ≤ T) :
    (runThreadedTest T lat).1.length = T
    ∧ (runThreadedTest T lat).2.length = T
    ∧ ∀ t, 1 ≤ t → t ≤ T →
        (runThreadedTest T lat).1[t - 1]? =
          some (((List.range t).map (lat t)).sum / (t : Rat))
        ∧ (runThreadedTest T lat).2[t - 1]? = some (toString t) := by
  refine ⟨by simp [runThreadedTest], by simp [runThreadedTest], ?_⟩
  intro t h1 h2
  have hlt : t - 1 < T := by omega
  have ht : t - 1 + 1 = t := by omega
  constructor
  · simp only [runThreadedTest, List.getElem?_map, List.getElem?_range hlt,
      Option.map_some', ht]
    rfl
  · simp [runThreadedTest, List.getElem?_range hlt, ht]

/-- C6, witness: the theorem applied at T = 2 with constant per-worker
latency 3. -/
theorem C6_witness :
    1 ≤ 2
    ∧ (runThreadedTest 2 (fun _ _ => 3)).1.length = 2
    ∧ (runThreadedTest 2 (fun _ _ => 3)).1[1]? =
        some (((List.range 2).map (fun _ => (3 : Rat))).sum / (2 : Rat)) :=
  ⟨by decide, (C6_threaded_scaling 2 (fun _ _ => 3) (by decide)).1,
   ((C6_threaded_scaling 2 (fun _ _ => 3) (by decide)).2.2 2 (by decide)
     (by decide)).1⟩

/-! ### C5: bandwidth-based boundary attribution -/

lemma qualifyingFrom_stop (bw : List Rat) (i : Nat) (h : bw.length ≤ i) :
    qualifyingFrom bw i = [] := by
  unfold qualifyingFrom
  have h2 : bw.length - i = 0 := by omega
  rw [h2]
  rfl

lemma qualifyingFrom_cons_pos (bw : List Rat) (i : Nat) (h : i < bw.length)
    (hq : qualifiesSpec bw i) :
    qualifyingFrom bw i = i :: qualifyingFrom bw (i + 1) := by
  unfold qualifyingFrom
  have h2 : bw.length - i = (bw.length - (i + 1)) + 1 := by omega
  rw [h2, List.range'_succ, List.filter_cons]
  simp [hq]

lemma qualifyingFrom_cons_neg (bw : List Rat) (i : Nat) (h : i < bw.length)
    (hq : ¬ qualifiesSpec bw i) :
    qualifyingFrom bw i = qualifyingFrom bw (i + 1) := by
  unfold qualifyingFrom
  have h2 : bw.length - i = (bw.length - (i + 1)) + 1 := by omega
  rw [h2, List.range'_succ, List.filter_cons]
  simp [hq]

lemma detectGo_two (bw : List Rat) :
    ∀ fuel i a b, 1 ≤ i → bw.length ≤ i + fuel →
      detectGo bw fuel i (some a) (some b) =
        (some a, some b, (qualifyingFrom bw i).get? 0) := by
  intro fuel
  induction fuel with
  | zero =>
    intro i a b hi hf
    rw [qualifyingFrom_stop bw i (by omega)]
    rfl
  | succ fuel ih =>
    intro i a b hi hf
    simp only [detectGo]
    by_cases h : i < bw.length
    · rw [if_pos h]
      by_cases hc : (3 : Rat) / 10 < 1 - bw.getD i 0 / bw.getD (i - 1) 0
      · rw [if_pos hc, qualifyingFrom_cons_pos bw i h ⟨hi, h, hc⟩]
        rfl
      · rw [if_neg hc, ih (i + 1) a b (by omega) (by omega),
          qualifyingFrom_cons_neg bw i h (fun q => hc q.2.2)]
    · rw [if_neg h, qualifyingFrom_stop bw i (by omega)]
      rfl

lemma detectGo_one (bw : List Rat) :
    ∀ fuel i a, 1 ≤ i → bw.length ≤ i + fuel →
      detectGo bw fuel i (some a) none =
        (some a, (qualifyingFrom bw i).get? 0, (qualifyingFrom bw i).get? 1) := by
  intro fuel
  induction fuel with
  | zero =>
    intro i a hi hf
    rw [qualifyingFrom_stop bw i (by omega)]
    rfl
  | succ fuel ih =>
    intro i a hi hf
    simp only [detectGo]
    by_cases h : i < bw.length
    · rw [if_pos h]
      by_cases hc : (3 : Rat) / 10 < 1 - bw.getD i 0 / bw.getD (i - 1) 0
      · rw [if_pos hc, qualifyingFrom_cons_pos bw i h ⟨hi, h, hc⟩,
          detectGo_two bw fuel (i + 1) a i (by omega) (by omega)]
        rfl
      · rw [if_neg hc, ih (i + 1) a (by omega) (by omega),
          qualifyingFrom_cons_neg bw i h (fun q => hc q.2.2)]
    · rw [if_neg h, qualifyingFrom_stop bw i (by omega)]
      rfl

lemma detectGo_none (bw : List Rat) :
    ∀ fuel i, 1 ≤ i → bw.length ≤ i + fuel →
      detectGo bw fuel i none none =
        ((qualifyingFrom bw i).get? 0, (qualifyingFrom bw i).get? 1,
         (qualifyingFrom bw i).get? 2) := by
  intro fuel
  induction fuel with
  | zero =>
    intro i hi hf
    rw [qualifyingFrom_stop bw i (by omega)]
    rfl
  | succ fuel ih =>
    intro i hi hf
    simp only [detectGo]
    by_cases h : i < bw.length
    · rw [if_pos h]
      by_cases hc : (3 : Rat) / 10 < 1 - bw.getD i 0 / bw.getD (i - 1) 0
      · rw [if_pos hc, qualifyingFrom_cons_pos bw i h ⟨hi, h, hc⟩,
          detectGo_one bw fuel (i + 1) i (by omega) (by omega)]
        rfl
      · rw [if_neg hc, ih (i + 1) (by omega) (by omega),
          qualifyingFrom_cons_neg bw i h (fun q => hc q.2.2)]
    · rw [if_neg h, qualifyingFrom_stop bw i (by omega)]
      rfl

lemma qualifyingIndices_eq_from_one (bw : List Rat) :
    qualifyingIndices bw = qualifyingFrom bw 1 := by
  unfold qualifyingIndices qualifyingFrom
  cases hl : bw.length with
  | zero => rfl
  | succ m =>
    rw [List.range_eq_range', List.range'_succ, List.filter_cons]
    have h0 : decide (qualifiesSpec bw 0) = false := by
      simp [qualifiesSpec]
    rw [h0]
    simp only [Bool.false_eq_true, if_false]
    rfl

lemma detectBoundaries_eq (bw : List Rat) :
    detectBoundaries bw =
      ((qualifyingFrom bw 1).get? 0, (qualifyingFrom bw 1).get? 1,
       (qualifyingFrom bw 1).get? 2) :=
  detectGo_none bw bw.length 1 (le_refl 1) (by omega)

/-- C5.  The boundary-detection loop of `EstimateCacheSizes`
(`src/unnamed/part_001`) marks exactly the indices `i ≥ 1` whose relative
bandwidth regression `1 - bandwidth[i]/bandwidth[i-1]` exceeds 0.3: its
`(l1Index, l2Index, l3Index)` triple consists of the first, second and
third qualifying index in ascending order, and each detected level is
attributed the size `sizes[index-1]` just below the regression, the
defaults being kept where no qualifying index exists. -/
theorem C5_boundary_attribution (bw : List Rat) :
    detectBoundaries bw =
      ((qualifyingIndices bw).get? 0, (qualifyingIndices bw).get? 1,
       (qualifyingIndices bw).get? 2)
    ∧ (estimateFromBandwidths bw).L1 =
        (match (qualifyingIndices bw).get? 0 with
         | some i => cacheSweepSizes.getD (i - 1) 0
         | none => 32 * 1024)
    ∧ (estimateFromBandwidths bw).L2 =
        (match (qualifyingIndices bw).get? 1 with
         | some i => cacheSweepSizes.getD (i - 1) 0
         | none => 256 * 1024)
    ∧ (estimateFromBandwidths bw).L3 =
        (match (qualifyingIndices bw).get? 2 with
         | some i => cacheSweepSizes.getD (i - 1) 0
         | none => 8 * 1024 * 1024) := by
  have hd : detectBoundaries bw =
      ((qualifyingIndices bw).get? 0, (qualifyingIndices bw).get? 1,
       (qualifyingIndices bw).get? 2) := by
    rw [qualifyingIndices_eq_from_one]
    exact detectBoundaries_eq bw
  refine ⟨hd, ?_, ?_, ?_⟩
  all_goals simp only [estimateFromBandwidths, hd]

end Gomemtest
